import Mathlib

/-!
# Verification of the Simbody basic force subsystems

A shallow embedding of `src/src/SimbodyForcesRep.h`: the two-point spring
force subsystem (`TwoPointSpringSubsystemRep`) and the uniform gravity
subsystem (`UniformGravitySubsystemRep`), together with the shared force
accumulators owned by the multibody system.

`Real` is idealized as `ℚ`.  The Euclidean norm `Vec3::norm()` belongs to the
external spatial-algebra library (`SimTKcommon`), so it enters the model as an
explicit function parameter `vnorm : Vec3 → ℚ`; theorems that need genuine
norm behaviour assume it through the `IsNormLike` predicate or through
pointwise hypotheses, exactly where the specification constrains it.

State that the C++ code reaches through `State`, `MultibodySystem` and
`MatterSubsystem` (discrete variables, cache entries, kinematics, the shared
force buffers) is gathered into one explicit record `SystemState`.  Each
`realizeXxx` member function becomes a function
`SystemState → Except Err SystemState`; the `SimTK_STAGECHECK_GE_ALWAYS` and
`SimTK_VALUECHECK_NONNEG_ALWAYS` macros, which throw C++ exceptions, become
`Except.error` values.
-/

namespace SimbodyForces

/-- Model of `SimTK::Vec3`: a column of three reals (idealized as `ℚ`). -/
structure Vec3 where
  x : ℚ
  y : ℚ
  z : ℚ
  deriving DecidableEq

/-- Componentwise addition of `Vec3` (from the external spatial algebra). -/
def Vec3.add (a b : Vec3) : Vec3 := ⟨a.x + b.x, a.y + b.y, a.z + b.z⟩

/-- Componentwise negation of `Vec3`. -/
def Vec3.neg (a : Vec3) : Vec3 := ⟨-a.x, -a.y, -a.z⟩

theorem Vec3.add_assoc' (a b c : Vec3) :
    Vec3.add (Vec3.add a b) c = Vec3.add a (Vec3.add b c) := by
  simp only [Vec3.add, Vec3.mk.injEq]
  exact ⟨by ring, by ring, by ring⟩

theorem Vec3.zero_add' (a : Vec3) : Vec3.add ⟨0, 0, 0⟩ a = a := by
  cases a
  simp only [Vec3.add, Vec3.mk.injEq]
  exact ⟨by ring, by ring, by ring⟩

theorem Vec3.add_zero' (a : Vec3) : Vec3.add a ⟨0, 0, 0⟩ = a := by
  cases a
  simp only [Vec3.add, Vec3.mk.injEq]
  exact ⟨by ring, by ring, by ring⟩

theorem Vec3.add_comm' (a b : Vec3) : Vec3.add a b = Vec3.add b a := by
  simp only [Vec3.add, Vec3.mk.injEq]
  exact ⟨by ring, by ring, by ring⟩

theorem Vec3.neg_add_cancel' (a : Vec3) : Vec3.add (Vec3.neg a) a = ⟨0, 0, 0⟩ := by
  simp only [Vec3.add, Vec3.neg, Vec3.mk.injEq]
  exact ⟨by ring, by ring, by ring⟩

instance instAddVec3 : Add Vec3 := ⟨Vec3.add⟩
instance instNegVec3 : Neg Vec3 := ⟨Vec3.neg⟩
instance instZeroVec3 : Zero Vec3 := ⟨⟨0, 0, 0⟩⟩

instance : AddCommGroup Vec3 where
  add_assoc := Vec3.add_assoc'
  zero_add := Vec3.zero_add'
  add_zero := Vec3.add_zero'
  add_comm := Vec3.add_comm'
  neg_add_cancel := Vec3.neg_add_cancel'
  nsmul := nsmulRec
  zsmul := zsmulRec

instance : Inhabited Vec3 := ⟨0⟩

/-- Scalar times vector, `Real * Vec3`. -/
instance : SMul ℚ Vec3 := ⟨fun c v => ⟨c * v.x, c * v.y, c * v.z⟩⟩

/-- Cross product `a % b` of the spatial algebra. -/
def Vec3.cross (a b : Vec3) : Vec3 :=
  ⟨a.y * b.z - a.z * b.y, a.z * b.x - a.x * b.z, a.x * b.y - a.y * b.x⟩

/-- Dot product `~a * b` of the spatial algebra. -/
def Vec3.dot (a b : Vec3) : ℚ := a.x * b.x + a.y * b.y + a.z * b.z

/-- Componentwise division of a vector by a scalar, `v / c`. -/
def Vec3.divR (v : Vec3) (c : ℚ) : Vec3 := ⟨v.x / c, v.y / c, v.z / c⟩

/-- A 3×3 matrix given by rows; models the rotation part of `Transform`. -/
structure Mat3 where
  r1 : Vec3
  r2 : Vec3
  r3 : Vec3
  deriving DecidableEq

/-- Matrix–vector product `R * v`. -/
def Mat3.mulVec (M : Mat3) (v : Vec3) : Vec3 := ⟨M.r1.dot v, M.r2.dot v, M.r3.dot v⟩

instance : Inhabited Mat3 := ⟨⟨⟨1, 0, 0⟩, ⟨0, 1, 0⟩, ⟨0, 0, 1⟩⟩⟩

/-- Model of `SimTK::Transform`: rotation `R()` and translation `T()`. -/
structure Transform where
  R : Mat3
  T : Vec3
  deriving DecidableEq

instance : Inhabited Transform := ⟨⟨default, 0⟩⟩

/-- Model of `SimTK::SpatialVec`: a (torque, linear force) pair. -/
abbrev SpatialVec := Vec3 × Vec3

/-- The stage ladder (`SimTK::Stage`). -/
inductive Stage
  | Allocated
  | Built
  | Modeled
  | Parametrized
  | Timed
  | Configured
  | Moving
  | Dynamics
  | Reaction
  deriving DecidableEq

/-- Position of a stage along the ladder. -/
def Stage.index : Stage → ℕ
  | .Allocated => 0
  | .Built => 1
  | .Modeled => 2
  | .Parametrized => 3
  | .Timed => 4
  | .Configured => 5
  | .Moving => 6
  | .Dynamics => 7
  | .Reaction => 8

theorem Stage.index_injective : Function.Injective Stage.index := by
  intro a b h
  cases a <;> cases b <;> first | rfl | simp [Stage.index] at h

instance : LinearOrder Stage := LinearOrder.lift' Stage.index Stage.index_injective

/-- Errors thrown by the realize hooks: the `SimTK_STAGECHECK_GE_ALWAYS` and
`SimTK_VALUECHECK_NONNEG_ALWAYS` macros. -/
inductive Err
  | stageCheckGE (loc : String) (required actual : Stage)
  | valueCheckNonneg (value : ℚ) (valueName loc : String)
  deriving DecidableEq

/-- One rigid body as seen through the `MatterSubsystem` interface:
`getBodyMass`, `getBodyCenterOfMass` (in the body frame) and
`getBodyConfiguration` (the transform `X_GB` from ground). -/
structure Body where
  mass : ℚ
  comB : Vec3
  X_GB : Transform
  deriving DecidableEq

instance : Inhabited Body := ⟨⟨0, 0, default⟩⟩

/-- One matter subsystem: its rigid bodies, particle masses
(`getParticleMasses`) and generalized velocities (`getU`; `getNMobilities`
is `u.length`). -/
structure MatterSubsystem where
  bodies : List Body
  particleMasses : List ℚ
  u : List ℚ
  deriving DecidableEq

instance : Inhabited MatterSubsystem := ⟨⟨[], [], []⟩⟩

/-- The shared force accumulators owned by the `MultibodySystem`:
`updRigidBodyForces`, `updParticleForces` and `updMobilityForces` (one buffer
per matter subsystem) plus the scalar `updPotentialEnergy`. -/
structure ForceAccum where
  rigidBodyForces : List (List SpatialVec)
  particleForces : List (List Vec3)
  mobilityForces : List (List ℚ)
  pe : ℚ
  deriving DecidableEq

/-- In-place update of entry `i` of a buffer (`buf[i] = f buf[i]`); indexes
past the end leave the buffer unchanged (the C++ code never does that: the
buffer sizes are `assert`ed against the matter subsystem's counts). -/
def modAt (f : α → α) : ℕ → List α → List α
  | _, [] => []
  | 0, a :: t => f a :: t
  | n + 1, a :: t => a :: modAt f n t

/-- Parameters of the spring (the `Parameters` discrete variable of
`TwoPointSpringSubsystemRep`). -/
structure SpringParameters where
  stiffness : ℚ
  naturalLength : ℚ
  gravity : Vec3
  damping : ℚ
  deriving DecidableEq

/-- The spring's Configured-stage cache entry. -/
structure ConfigurationCache where
  station1_G : Vec3
  station2_G : Vec3
  v_G : Vec3
  x : ℚ
  fscalar : ℚ
  pe : ℚ
  deriving DecidableEq

/-- The spring's Dynamics-stage cache entry (`f2` is the negative of `f1_G`). -/
structure DynamicsCache where
  f1_G : Vec3
  deriving DecidableEq

/-- Topological variables of the spring: the two bodies and the stations
fixed on them. -/
structure SpringTopology where
  body1 : ℕ
  body2 : ℕ
  station1 : Vec3
  station2 : Vec3
  deriving DecidableEq

/-- Parameters of the gravity element (the `Parameters` discrete variable of
`UniformGravitySubsystemRep`). -/
structure GravityParameters where
  gravity : Vec3
  zeroHeight : ℚ
  enabled : Bool
  deriving DecidableEq

/-- The gravity element's Parametrized-stage cache (`gDirection` is stored as
a plain vector: the C++ `UnitVec3` constructor is called with the
"trust me, already normalized" flag and performs no computation). -/
structure GravityParameterCache where
  gDirection : Vec3
  gMagnitude : ℚ
  deriving DecidableEq

/-- Everything a realize hook can reach: the realized stage, both elements'
discrete variables and cache entries, the kinematics of every matter
subsystem, and the shared force accumulators. -/
structure SystemState where
  stage : Stage
  springParams : SpringParameters
  springConfCache : ConfigurationCache
  springDynCache : DynamicsCache
  gravParams : GravityParameters
  gravParamCache : GravityParameterCache
  matter : List MatterSubsystem
  accum : ForceAccum
  deriving DecidableEq

/-! ## The spring's realize hooks (`TwoPointSpringSubsystemRep`) -/

def springModelingLoc : String := "TwoPointSpring::realizeModeling()"
def springParametersLoc : String := "TwoPointSpring::realizeParameters()"
def springTimeLoc : String := "TwoPointSpring::realizeTime()"
def springConfigurationLoc : String := "TwoPointSpring::realizeConfiguration()"
def springMotionLoc : String := "TwoPointSpring::realizeMotion()"
def springDynamicsLoc : String := "TwoPointSpring::realizeDynamics()"
def springReactionLoc : String := "TwoPointSpring::realizeReaction()"

/-- Translation of `TwoPointSpringSubsystemRep::realizeModeling`. -/
def springRealizeModeling (s : SystemState) : Except Err SystemState :=
  if s.stage < Stage.Built then
    .error (.stageCheckGE springModelingLoc Stage.Built s.stage)
  else
    .ok s

/-- Translation of `TwoPointSpringSubsystemRep::realizeParameters`: stage check, then the
two non-negativity checks; nothing is computed. -/
def springRealizeParameters (s : SystemState) : Except Err SystemState :=
  if s.stage < Stage.Modeled then
    .error (.stageCheckGE springParametersLoc Stage.Modeled s.stage)
  else if s.springParams.stiffness < 0 then
    .error (.valueCheckNonneg s.springParams.stiffness "stiffness" springParametersLoc)
  else if s.springParams.naturalLength < 0 then
    .error (.valueCheckNonneg s.springParams.naturalLength "naturalLength" springParametersLoc)
  else
    .ok s

/-- Translation of `TwoPointSpringSubsystemRep::realizeTime`: stage check only. -/
def springRealizeTime (s : SystemState) : Except Err SystemState :=
  if s.stage < Stage.Parametrized then
    .error (.stageCheckGE springTimeLoc Stage.Parametrized s.stage)
  else
    .ok s

/-- The configuration cache as computed by
`TwoPointSpringSubsystemRep::realizeConfiguration`.  It is a function of the
parameters and of matter subsystem 0 alone (the code reads
`getMatterSubsystem(0)` only). -/
def springConfCacheOf (vnorm : Vec3 → ℚ) (topo : SpringTopology)
    (p : SpringParameters) (m0 : MatterSubsystem) : ConfigurationCache :=
  let X_GB1 := (m0.bodies.getD topo.body1 default).X_GB
  let X_GB2 := (m0.bodies.getD topo.body2 default).X_GB
  let station1_G := X_GB1.R.mulVec topo.station1
  let station2_G := X_GB2.R.mulVec topo.station2
  let p1_G := X_GB1.T + station1_G
  let p2_G := X_GB2.T + station2_G
  let v_G := p2_G - p1_G
  let x := vnorm v_G
  let stretch := x - p.naturalLength
  let fscalar := p.stiffness * stretch
  let pe := (1 / 2 : ℚ) * fscalar * stretch
  ⟨station1_G, station2_G, v_G, x, fscalar, pe⟩

/-- Translation of `TwoPointSpringSubsystemRep::realizeConfiguration`: reads the two body
configurations from matter subsystem 0 and fills the configuration cache. -/
def springRealizeConfiguration (vnorm : Vec3 → ℚ) (topo : SpringTopology)
    (s : SystemState) : Except Err SystemState :=
  if s.stage < Stage.Timed then
    .error (.stageCheckGE springConfigurationLoc Stage.Timed s.stage)
  else
    .ok { s with springConfCache :=
      springConfCacheOf vnorm topo s.springParams (s.matter.getD 0 default) }

/-- Translation of `TwoPointSpringSubsystemRep::realizeMotion`: stage check only. -/
def springRealizeMotion (s : SystemState) : Except Err SystemState :=
  if s.stage < Stage.Configured then
    .error (.stageCheckGE springMotionLoc Stage.Configured s.stage)
  else
    .ok s

/-- The accumulator updates of `TwoPointSpringSubsystemRep::realizeDynamics`,
in source order: `pe += cc.pe`, `rigidBodyForces[body1] += ...`,
`rigidBodyForces[body2] -= ...` (all in matter subsystem 0's buffer), and —
when damping is nonzero — `mobilityForces -= damping * u`. -/
def springDynAccum (topo : SpringTopology) (damping : ℚ) (cc : ConfigurationCache)
    (f1_G : Vec3) (u0 : List ℚ) (a0 : ForceAccum) : ForceAccum :=
  let a1 := { a0 with pe := a0.pe + cc.pe }
  let rbf1 :=
    modAt (fun buf => modAt (fun fb => fb + (cc.station1_G.cross f1_G, f1_G)) topo.body1 buf)
      0 a1.rigidBodyForces
  let a2 := { a1 with rigidBodyForces := rbf1 }
  let rbf2 :=
    modAt (fun buf => modAt (fun fb => fb - (cc.station2_G.cross f1_G, f1_G)) topo.body2 buf)
      0 a2.rigidBodyForces
  let a3 := { a2 with rigidBodyForces := rbf2 }
  if damping ≠ 0 then
    let mf1 :=
      modAt (fun mf => List.zipWith (fun f ui => f - damping * ui) mf u0)
        0 a3.mobilityForces
    { a3 with mobilityForces := mf1 }
  else a3

/-- Translation of `TwoPointSpringSubsystemRep::realizeDynamics`: the success
branch stores the dynamics cache and runs `springDynAccum` on the shared
accumulators. -/
def springRealizeDynamics (topo : SpringTopology) (s : SystemState) :
    Except Err SystemState :=
  if s.stage < Stage.Moving then
    .error (.stageCheckGE springDynamicsLoc Stage.Moving s.stage)
  else
    let cc := s.springConfCache
    let f1_G := (cc.fscalar / cc.x) • cc.v_G
    let m0 := s.matter.getD 0 default
    let acc := springDynAccum topo s.springParams.damping cc f1_G m0.u s.accum
    .ok { s with springDynCache := ⟨f1_G⟩, accum := acc }

/-- Translation of `TwoPointSpringSubsystemRep::realizeReaction`: stage check only. -/
def springRealizeReaction (s : SystemState) : Except Err SystemState :=
  if s.stage < Stage.Dynamics then
    .error (.stageCheckGE springReactionLoc Stage.Dynamics s.stage)
  else
    .ok s

/-! ## The gravity element's realize hooks (`UniformGravitySubsystemRep`) -/

def gravityParametersLoc : String := "UniformGravity::realizeParameters()"
def gravityConfigurationLoc : String := "UniformGravity::realizeConfiguration()"
def gravityDynamicsLoc : String := "UniformGravity::realizeDynamics()"

/-- Translation of `UniformGravitySubsystemRep::realizeParameters`: caches `|g|` and the
unit direction, defaulting to `Vec3(0,0,1)` when the magnitude is zero. -/
def gravityRealizeParameters (vnorm : Vec3 → ℚ) (s : SystemState) :
    Except Err SystemState :=
  if s.stage < Stage.Modeled then
    .error (.stageCheckGE gravityParametersLoc Stage.Modeled s.stage)
  else
    let g := s.gravParams.gravity
    let gMagnitude := vnorm g
    let gDirection := if gMagnitude = 0 then (⟨0, 0, 1⟩ : Vec3) else g.divR gMagnitude
    .ok { s with gravParamCache := ⟨gDirection, gMagnitude⟩ }

/-- Translation of `UniformGravitySubsystemRep::realizeConfiguration`: stage check only. -/
def gravityRealizeConfiguration (s : SystemState) : Except Err SystemState :=
  if s.stage < Stage.Timed then
    .error (.stageCheckGE gravityConfigurationLoc Stage.Timed s.stage)
  else
    .ok s

/-- The spatial force `SpatialVec(com_B_G % (m*g), m*g)` that gravity adds to
one rigid body's slot. -/
def gravBodySpatial (g : Vec3) (b : Body) : SpatialVec :=
  let com_B_G := b.X_GB.R.mulVec b.comB
  (com_B_G.cross (b.mass • g), b.mass • g)

/-- The potential-energy term `m*(~g*com_G - gh0)` that gravity adds for one
rigid body. -/
def gravBodyPE (g : Vec3) (gh0 : ℚ) (b : Body) : ℚ :=
  let com_B_G := b.X_GB.R.mulVec b.comB
  let com_G := b.X_GB.T + com_B_G
  b.mass * (g.dot com_G - gh0)

/-- The per-matter-subsystem loop of
`UniformGravitySubsystemRep::realizeDynamics`: for every matter subsystem,
`particleForces[i] += g*m[i]` for every particle, and for every rigid body
`pe += m*(~g*com_G - gh0)` and `rigidBodyForces[i] += SpatialVec(...)`.
(Each subsystem's buffers are written independently and only `pe`
accumulates across subsystems, so the per-index loops are rendered as
`zipWith` over the parallel, size-`assert`ed lists.) -/
def gravityApply (g : Vec3) (gh0 : ℚ) (matter : List MatterSubsystem)
    (a : ForceAccum) : ForceAccum :=
  let rbf := List.zipWith
    (fun buf m => List.zipWith (fun f b => f + gravBodySpatial g b) buf m.bodies)
    a.rigidBodyForces matter
  let pf := List.zipWith
    (fun buf m => List.zipWith (fun f mass => f + mass • g) buf m.particleMasses)
    a.particleForces matter
  let pe := a.pe + (matter.map (fun m => (m.bodies.map (gravBodyPE g gh0)).sum)).sum
  { rigidBodyForces := rbf, particleForces := pf,
    mobilityForces := a.mobilityForces, pe := pe }

/-- Translation of `UniformGravitySubsystemRep::realizeDynamics`: stage check,
the disabled/zero-magnitude short circuit, then `gravityApply` on the shared
accumulators. -/
def gravityRealizeDynamics (s : SystemState) : Except Err SystemState :=
  if s.stage < Stage.Moving then
    .error (.stageCheckGE gravityDynamicsLoc Stage.Moving s.stage)
  else if s.gravParams.enabled = false ∨ s.gravParamCache.gMagnitude = 0 then
    .ok s
  else
    let g := s.gravParams.gravity
    let gh0 := s.gravParamCache.gMagnitude * s.gravParams.zeroHeight
    .ok { s with accum := gravityApply g gh0 s.matter s.accum }

/-! ## Evaluation lemmas for the vector algebra -/

theorem Vec3.add_mk (a1 a2 a3 b1 b2 b3 : ℚ) :
    ((⟨a1, a2, a3⟩ : Vec3) + ⟨b1, b2, b3⟩) = ⟨a1 + b1, a2 + b2, a3 + b3⟩ := rfl

theorem Vec3.neg_mk (a1 a2 a3 : ℚ) : (-(⟨a1, a2, a3⟩ : Vec3)) = ⟨-a1, -a2, -a3⟩ := rfl

theorem Vec3.sub_def (a b : Vec3) : a - b = ⟨a.x - b.x, a.y - b.y, a.z - b.z⟩ := by
  show Vec3.add a (Vec3.neg b) = _
  simp only [Vec3.add, Vec3.neg, Vec3.mk.injEq]
  exact ⟨by ring, by ring, by ring⟩

theorem Vec3.smul_mk (c a1 a2 a3 : ℚ) :
    (c • (⟨a1, a2, a3⟩ : Vec3)) = ⟨c * a1, c * a2, c * a3⟩ := rfl

theorem Vec3.zero_def : (0 : Vec3) = ⟨0, 0, 0⟩ := rfl

theorem Vec3.smul_def (c : ℚ) (v : Vec3) : c • v = ⟨c * v.x, c * v.y, c * v.z⟩ := rfl

theorem Vec3.cross_neg (a b : Vec3) : a.cross (-b) = -(a.cross b) := by
  cases a; cases b
  simp only [Vec3.cross, Vec3.neg_mk, Vec3.mk.injEq]
  exact ⟨by ring, by ring, by ring⟩

theorem Vec3.divR_eq_smul (v : Vec3) (c : ℚ) : v.divR c = (1 / c) • v := by
  cases v
  simp only [Vec3.divR, Vec3.smul_mk, Vec3.mk.injEq]
  exact ⟨by ring, by ring, by ring⟩

/-! ## The norm interface

`Vec3::norm()` lives in the external `SimTKcommon` spatial algebra; the model
takes it as a parameter.  `IsNormLike` captures the properties of a norm that
the specification relies on; `oneNorm` is a concrete instance used to
exercise the theorems. -/

/-- The properties of `Vec3::norm()` that the development relies on:
non-negativity, definiteness, and absolute homogeneity. -/
def IsNormLike (vnorm : Vec3 → ℚ) : Prop :=
  (∀ v, 0 ≤ vnorm v) ∧ (∀ v, vnorm v = 0 ↔ v = 0) ∧
    (∀ (c : ℚ) (v : Vec3), vnorm (c • v) = |c| * vnorm v)

/-- The 1-norm on `Vec3`: a computable norm satisfying `IsNormLike`. -/
def oneNorm (v : Vec3) : ℚ := |v.x| + |v.y| + |v.z|

theorem oneNorm_isNormLike : IsNormLike oneNorm := by
  refine ⟨fun v => by cases v; simp only [oneNorm]; positivity, fun v => ?_, fun c v => ?_⟩
  · constructor
    · intro h
      cases v with
      | mk a b c =>
        simp only [oneNorm] at h
        rw [add_eq_zero_iff_of_nonneg (by positivity) (abs_nonneg _),
          add_eq_zero_iff_of_nonneg (abs_nonneg _) (abs_nonneg _)] at h
        simp only [abs_eq_zero] at h
        simp [Vec3.zero_def, h.1.1, h.1.2, h.2]
    · intro h
      simp [h, oneNorm, Vec3.zero_def]
  · cases v with
    | mk a b c' =>
      simp only [oneNorm, Vec3.smul_mk, abs_mul]
      ring

/-! ## Lemmas about `modAt` and additive `zipWith` -/

theorem modAt_nil (f : α → α) (i : ℕ) : modAt f i ([] : List α) = [] := by
  cases i <;> rfl

theorem modAt_length (f : α → α) : ∀ (i : ℕ) (l : List α), (modAt f i l).length = l.length
  | _, [] => by rw [modAt_nil]
  | 0, _ :: _ => rfl
  | i + 1, _ :: t => by simp [modAt, modAt_length f i t]

theorem modAt_eq_of_ge (f : α → α) :
    ∀ (i : ℕ) (l : List α), l.length ≤ i → modAt f i l = l
  | _, [], _ => by rw [modAt_nil]
  | i + 1, a :: t, h => by
    simp only [modAt, List.cons.injEq, true_and]
    exact modAt_eq_of_ge f i t (by simpa using h)

theorem getD_modAt_ne (f : α → α) :
    ∀ (i j : ℕ), i ≠ j → ∀ (l : List α) (d : α), (modAt f i l).getD j d = l.getD j d
  | _, _, _, [], _ => by rw [modAt_nil]
  | 0, 0, hij, _ :: _, _ => absurd rfl hij
  | 0, _ + 1, _, _ :: _, _ => rfl
  | _ + 1, 0, _, _ :: _, _ => rfl
  | i + 1, j + 1, hij, a :: t, d => by
    simpa [modAt] using getD_modAt_ne f i j (by omega) t d

theorem getD_modAt_self (f : α → α) :
    ∀ (i : ℕ) (l : List α) (d : α), i < l.length →
      (modAt f i l).getD i d = f (l.getD i d)
  | 0, _ :: _, _, _ => rfl
  | i + 1, a :: t, d, h => by
    simpa [modAt] using getD_modAt_self f i t d (by simpa using h)

theorem modAt_modAt_same (f g : α → α) :
    ∀ (i : ℕ) (l : List α), modAt f i (modAt g i l) = modAt (fun a => f (g a)) i l
  | _, [] => by simp [modAt_nil]
  | 0, _ :: _ => rfl
  | i + 1, a :: t => by simp [modAt, modAt_modAt_same f g i t]

theorem zipWith_add_replicate_zero [AddMonoid α] :
    ∀ (l : List α) (n : ℕ), l.length ≤ n →
      List.zipWith (· + ·) l (List.replicate n (0 : α)) = l
  | [], _, _ => by simp
  | a :: t, n + 1, h => by
    simp only [List.replicate_succ, List.zipWith_cons_cons, add_zero, List.cons.injEq, true_and]
    exact zipWith_add_replicate_zero t n (by simpa using h)

theorem replicate_zero_zipWith_add [AddCommMonoid α] (l : List α) (n : ℕ) (h : l.length ≤ n) :
    List.zipWith (· + ·) (List.replicate n (0 : α)) l = l :=
  (List.zipWith_comm_of_comm _ add_comm _ _).trans (zipWith_add_replicate_zero l n h)

/-- Pushing an additive `zipWith` through an in-place `modAt` update, for
updates `g` that commute with addition on the left. -/
theorem zipWith_add_modAt [AddMonoid α] (g : α → α) (hg : ∀ p q, p + g q = g (p + q)) :
    ∀ (x z : List α) (i : ℕ), x.length ≤ z.length →
      List.zipWith (· + ·) x (modAt g i z) = modAt g i (List.zipWith (· + ·) x z)
  | [], z, i, _ => by simp [modAt_nil]
  | a :: t, b :: u, 0, h => by simp [modAt, hg]
  | a :: t, b :: u, i + 1, h => by
    simp only [modAt, List.zipWith_cons_cons, List.cons.injEq, true_and]
    exact zipWith_add_modAt g hg t u i (by simpa using h)

/-- Pushing an additive `zipWith` through an elementwise `zipWith k · u`
update, for `k` commuting with addition on the left. -/
theorem zipWith_add_zipWith_left [AddMonoid α] (k : α → β → α)
    (hk : ∀ p q b, p + k q b = k (p + q) b) :
    ∀ (x z : List α) (u : List β),
      List.zipWith (· + ·) x (List.zipWith k z u) =
        List.zipWith k (List.zipWith (· + ·) x z) u
  | [], _, _ => by simp
  | _ :: _, [], _ => by simp
  | _ :: _, _ :: _, [] => by simp
  | a :: t, b :: w, c :: u => by
    simp only [List.zipWith_cons_cons, List.cons.injEq]
    exact ⟨hk a b c, zipWith_add_zipWith_left k hk t w u⟩

/-- Evaluating `zipWith k (replicate n c) l` gives `map (k c) l` when `l` fits. -/
theorem zipWith_replicate_left (k : α → β → γ) (c : α) :
    ∀ (n : ℕ) (l : List β), l.length ≤ n →
      List.zipWith k (List.replicate n c) l = l.map (k c)
  | _, [], _ => by simp
  | n + 1, b :: t, h => by
    simp only [List.replicate_succ, List.zipWith_cons_cons, List.map_cons, List.cons.injEq,
      true_and]
    exact zipWith_replicate_left k c n t (by simpa using h)

theorem zipWith_add_right_comm [AddCommMonoid α] :
    ∀ (a b c : List α),
      List.zipWith (· + ·) (List.zipWith (· + ·) a b) c =
        List.zipWith (· + ·) (List.zipWith (· + ·) a c) b
  | [], _, _ => by simp
  | _ :: _, [], _ => by simp
  | _ :: _, _ :: _, [] => by simp
  | a :: t, b :: u, c :: w => by
    simp only [List.zipWith_cons_cons, List.cons.injEq]
    exact ⟨add_right_comm a b c, zipWith_add_right_comm t u w⟩

/-! ## Accumulator algebra

`addAccum` is bufferwise addition of two force-accumulator contents;
`zeroAccumFor` is the zeroed accumulator sized for a given list of matter
subsystems (the driver zeroes the buffers before the Dynamics pass);
`accumMatches` says the accumulator buffers have exactly the sizes the code
`assert`s against the matter subsystems. -/

/-- Bufferwise sum of two lists of per-subsystem buffers. -/
def zipAdd2 [Add α] (x y : List (List α)) : List (List α) :=
  List.zipWith (fun u v => List.zipWith (· + ·) u v) x y

/-- Bufferwise sum of two force-accumulator contents. -/
def addAccum (a b : ForceAccum) : ForceAccum :=
  { rigidBodyForces := zipAdd2 a.rigidBodyForces b.rigidBodyForces,
    particleForces := zipAdd2 a.particleForces b.particleForces,
    mobilityForces := zipAdd2 a.mobilityForces b.mobilityForces,
    pe := a.pe + b.pe }

/-- The zeroed accumulator sized for `matter`. -/
def zeroAccumFor (matter : List MatterSubsystem) : ForceAccum :=
  { rigidBodyForces := matter.map (fun m => List.replicate m.bodies.length 0),
    particleForces := matter.map (fun m => List.replicate m.particleMasses.length 0),
    mobilityForces := matter.map (fun m => List.replicate m.u.length 0),
    pe := 0 }

/-- The accumulator buffers have the sizes asserted by the code:
one buffer per matter subsystem, sized to its body / particle / mobility
counts. -/
def accumMatches (matter : List MatterSubsystem) (a : ForceAccum) : Prop :=
  List.Forall₂ (fun buf m => buf.length = m.bodies.length) a.rigidBodyForces matter ∧
  List.Forall₂ (fun buf m => buf.length = m.particleMasses.length) a.particleForces matter ∧
  List.Forall₂ (fun buf m => buf.length = m.u.length) a.mobilityForces matter

instance (matter : List MatterSubsystem) (a : ForceAccum) :
    Decidable (accumMatches matter a) := by
  unfold accumMatches
  infer_instance

/-- Adding zero-filled buffers of matching sizes is the identity. -/
theorem zipAdd2_zeros [AddMonoid α] (sz : MatterSubsystem → ℕ)
    {A : List (List α)} {ms : List MatterSubsystem}
    (h : List.Forall₂ (fun buf m => buf.length = sz m) A ms) :
    zipAdd2 A (ms.map (fun m => List.replicate (sz m) 0)) = A := by
  induction h with
  | nil => rfl
  | cons hxm htail ih =>
    simp only [zipAdd2, List.map_cons, List.zipWith_cons_cons, List.cons.injEq] at ih ⊢
    exact ⟨by rw [zipWith_add_replicate_zero _ _ (le_of_eq hxm)], ih⟩

/-- Adding a single-slot update of zero-filled buffers equals performing the
update in place, provided the update commutes with bufferwise addition. -/
theorem zipAdd2_modAt_zeros [AddMonoid α] (sz : MatterSubsystem → ℕ)
    {A : List (List α)} {ms : List MatterSubsystem}
    (h : List.Forall₂ (fun buf m => buf.length = sz m) A ms)
    (F : List α → List α)
    (hF : ∀ (x z : List α), x.length ≤ z.length →
      List.zipWith (· + ·) x (F z) = F (List.zipWith (· + ·) x z)) :
    zipAdd2 A (modAt F 0 (ms.map (fun m => List.replicate (sz m) 0))) = modAt F 0 A := by
  cases h with
  | nil => rfl
  | cons hxm htail =>
    rename_i x m A' ms'
    simp only [List.map_cons, modAt, zipAdd2, List.zipWith_cons_cons, List.cons.injEq]
    constructor
    · rw [hF x _ (by simp [hxm]), zipWith_add_replicate_zero _ _ (le_of_eq hxm)]
    · exact zipAdd2_zeros sz htail

theorem zipAdd2_comm [AddCommMonoid α] (A B : List (List α)) : zipAdd2 A B = zipAdd2 B A :=
  List.zipWith_comm_of_comm _ (fun u v => List.zipWith_comm_of_comm _ add_comm u v) A B

theorem zipAdd2_right_comm [AddCommMonoid α] :
    ∀ (A B C : List (List α)), zipAdd2 (zipAdd2 A B) C = zipAdd2 (zipAdd2 A C) B
  | [], _, _ => by simp [zipAdd2]
  | _ :: _, [], _ => by simp [zipAdd2]
  | _ :: _, _ :: _, [] => by simp [zipAdd2]
  | a :: t, b :: u, c :: w => by
    simp only [zipAdd2, List.zipWith_cons_cons, List.cons.injEq]
    exact ⟨zipWith_add_right_comm a b c, zipAdd2_right_comm t u w⟩

/-- Accumulator addition is order-insensitive: adding contributions `b` then `c` gives
the same accumulator contents as adding `c` then `b`. -/
theorem addAccum_right_comm (a b c : ForceAccum) :
    addAccum (addAccum a b) c = addAccum (addAccum a c) b := by
  simp only [addAccum, ForceAccum.mk.injEq]
  exact ⟨zipAdd2_right_comm _ _ _, zipAdd2_right_comm _ _ _, zipAdd2_right_comm _ _ _,
    add_right_comm _ _ _⟩

/-- Folding a list of contributions into an accumulator is invariant under
permutation of the contributions. -/
theorem foldl_addAccum_perm {ds ds' : List ForceAccum} (h : ds.Perm ds') :
    ∀ (a : ForceAccum), ds.foldl addAccum a = ds'.foldl addAccum a := by
  induction h with
  | nil => intro a; rfl
  | cons x _ ih => intro a; simpa using ih (addAccum a x)
  | swap x y l => intro a; simp [List.foldl, addAccum_right_comm]
  | trans _ _ ih1 ih2 => intro a; exact (ih1 a).trans (ih2 a)

/-- Adding a size-matching contribution to the zeroed accumulator gives back
the contribution. -/
theorem addAccum_zero_left {matter : List MatterSubsystem} {d : ForceAccum}
    (h : accumMatches matter d) : addAccum (zeroAccumFor matter) d = d := by
  obtain ⟨h1, h2, h3⟩ := h
  obtain ⟨dr, dp, dm, dpe⟩ := d
  simp only [addAccum, zeroAccumFor, ForceAccum.mk.injEq, zero_add, and_true]
  refine ⟨?_, ?_, ?_⟩
  · rw [zipAdd2_comm, zipAdd2_zeros _ h1]
  · rw [zipAdd2_comm, zipAdd2_zeros _ h2]
  · rw [zipAdd2_comm, zipAdd2_zeros _ h3]

/-- Adding buffers obtained by a bodywise `+=` sweep over zero-filled
buffers equals performing the sweep in place. -/
theorem zipAdd2_zipWith_zeros [AddMonoid α] (sel : MatterSubsystem → List β) (S : β → α)
    {A : List (List α)} {ms : List MatterSubsystem}
    (h : List.Forall₂ (fun buf m => buf.length = (sel m).length) A ms) :
    zipAdd2 A (List.zipWith (fun buf m => List.zipWith (fun f b => f + S b) buf (sel m))
        (ms.map (fun m => List.replicate (sel m).length 0)) ms) =
      List.zipWith (fun buf m => List.zipWith (fun f b => f + S b) buf (sel m)) A ms := by
  induction h with
  | nil => rfl
  | cons hxm htail ih =>
    rename_i x m A' ms'
    simp only [List.map_cons, List.zipWith_cons_cons, zipAdd2, List.cons.injEq] at ih ⊢
    refine ⟨?_, ih⟩
    rw [zipWith_replicate_left _ _ _ _ le_rfl]
    simp only [zero_add]
    rw [List.zipWith_map_right]

/-- The update `springDynAccum` only adds to the accumulators: its effect on any
size-matching accumulator contents equals bufferwise addition of its
standalone contribution (its effect on the zeroed accumulator), which does
not depend on the prior accumulator contents. -/
theorem springDynAccum_additive (topo : SpringTopology) (d : ℚ) (cc : ConfigurationCache)
    (f1 : Vec3) (u0 : List ℚ) {matter : List MatterSubsystem} {a : ForceAccum}
    (h : accumMatches matter a) :
    springDynAccum topo d cc f1 u0 a =
      addAccum a (springDynAccum topo d cc f1 u0 (zeroAccumFor matter)) := by
  obtain ⟨h1, h2, h3⟩ := h
  have hg1 : ∀ p q : SpatialVec, p + (q + (cc.station1_G.cross f1, f1)) =
      (p + q) + (cc.station1_G.cross f1, f1) := fun p q => (add_assoc p q _).symm
  have hg2 : ∀ p q : SpatialVec, p + (q - (cc.station2_G.cross f1, f1)) =
      (p + q) - (cc.station2_G.cross f1, f1) := fun p q => (add_sub_assoc p q _).symm
  have hF : ∀ (x z : List SpatialVec), x.length ≤ z.length →
      List.zipWith (· + ·) x
        (modAt (fun fb => fb - (cc.station2_G.cross f1, f1)) topo.body2
          (modAt (fun fb => fb + (cc.station1_G.cross f1, f1)) topo.body1 z)) =
      modAt (fun fb => fb - (cc.station2_G.cross f1, f1)) topo.body2
        (modAt (fun fb => fb + (cc.station1_G.cross f1, f1)) topo.body1
          (List.zipWith (· + ·) x z)) := by
    intro x z hlen
    rw [zipWith_add_modAt _ hg2 x _ _ (by rw [modAt_length]; exact hlen),
      zipWith_add_modAt _ hg1 x z _ hlen]
  have hM : ∀ (x z : List ℚ), x.length ≤ z.length →
      List.zipWith (· + ·) x (List.zipWith (fun f ui => f - d * ui) z u0) =
        List.zipWith (fun f ui => f - d * ui) (List.zipWith (· + ·) x z) u0 :=
    fun x z _ => zipWith_add_zipWith_left (fun f ui => f - d * ui)
      (fun p q b => (add_sub_assoc p q (d * b)).symm) x z u0
  by_cases hd : d = 0
  · have hcond : ¬(d ≠ 0) := fun hcon => hcon hd
    simp only [springDynAccum, if_neg hcond, addAccum, zeroAccumFor,
      ForceAccum.mk.injEq]
    refine ⟨?_, (zipAdd2_zeros _ h2).symm, (zipAdd2_zeros _ h3).symm, by rw [zero_add]⟩
    rw [modAt_modAt_same, modAt_modAt_same,
      (zipAdd2_modAt_zeros _ h1 _ (fun x z hlen => hF x z hlen)).symm]
  · simp only [springDynAccum, if_pos hd, addAccum, zeroAccumFor, ForceAccum.mk.injEq]
    refine ⟨?_, (zipAdd2_zeros _ h2).symm, ?_, by rw [zero_add]⟩
    · rw [modAt_modAt_same, modAt_modAt_same,
        (zipAdd2_modAt_zeros _ h1 _ (fun x z hlen => hF x z hlen)).symm]
    · exact (zipAdd2_modAt_zeros _ h3 _ hM).symm

/-- The update `gravityApply` only adds to the accumulators: its effect on any
size-matching accumulator contents equals bufferwise addition of its
standalone contribution (its effect on the zeroed accumulator), which does
not depend on the prior accumulator contents. -/
theorem gravityApply_additive (g : Vec3) (gh0 : ℚ)
    {matter : List MatterSubsystem} {a : ForceAccum}
    (h : accumMatches matter a) :
    gravityApply g gh0 matter a =
      addAccum a (gravityApply g gh0 matter (zeroAccumFor matter)) := by
  obtain ⟨h1, h2, h3⟩ := h
  simp only [gravityApply, addAccum, zeroAccumFor, ForceAccum.mk.injEq]
  exact ⟨(zipAdd2_zipWith_zeros (fun m => m.bodies) (gravBodySpatial g) h1).symm,
    (zipAdd2_zipWith_zeros (fun m => m.particleMasses) (fun mass => mass • g) h2).symm,
    (zipAdd2_zeros _ h3).symm, by rw [zero_add]⟩

/-! ## Success results and success-case elimination for the hooks -/

/-- The state produced by a successful `springRealizeConfiguration`. -/
def springConfResult (vnorm : Vec3 → ℚ) (topo : SpringTopology) (s : SystemState) :
    SystemState :=
  { s with springConfCache :=
      springConfCacheOf vnorm topo s.springParams (s.matter.getD 0 default) }

/-- The state produced by a successful `springRealizeDynamics`. -/
def springDynResult (topo : SpringTopology) (s : SystemState) : SystemState :=
  let cc := s.springConfCache
  let f1_G := (cc.fscalar / cc.x) • cc.v_G
  let m0 := s.matter.getD 0 default
  let acc := springDynAccum topo s.springParams.damping cc f1_G m0.u s.accum
  { s with springDynCache := ⟨f1_G⟩, accum := acc }

/-- The state produced by a successful `gravityRealizeParameters`. -/
def gravityParamResult (vnorm : Vec3 → ℚ) (s : SystemState) : SystemState :=
  let g := s.gravParams.gravity
  let gMagnitude := vnorm g
  let gDirection := if gMagnitude = 0 then (⟨0, 0, 1⟩ : Vec3) else g.divR gMagnitude
  { s with gravParamCache := ⟨gDirection, gMagnitude⟩ }

/-- The state produced by a successful, non-short-circuited
`gravityRealizeDynamics`. -/
def gravityDynResult (s : SystemState) : SystemState :=
  let g := s.gravParams.gravity
  let gh0 := s.gravParamCache.gMagnitude * s.gravParams.zeroHeight
  { s with accum := gravityApply g gh0 s.matter s.accum }

theorem springRealizeConfiguration_ok {vnorm : Vec3 → ℚ} {topo : SpringTopology}
    {s s' : SystemState} (hok : springRealizeConfiguration vnorm topo s = .ok s') :
    ¬s.stage < Stage.Timed ∧ s' = springConfResult vnorm topo s := by
  by_cases h : s.stage < Stage.Timed
  · rw [springRealizeConfiguration, if_pos h] at hok
    exact absurd hok (by simp)
  · rw [springRealizeConfiguration, if_neg h] at hok
    exact ⟨h, (Except.ok.inj hok).symm⟩

theorem springRealizeDynamics_ok {topo : SpringTopology} {s s' : SystemState}
    (hok : springRealizeDynamics topo s = .ok s') :
    ¬s.stage < Stage.Moving ∧ s' = springDynResult topo s := by
  by_cases h : s.stage < Stage.Moving
  · rw [springRealizeDynamics, if_pos h] at hok
    exact absurd hok (by simp)
  · rw [springRealizeDynamics, if_neg h] at hok
    exact ⟨h, (Except.ok.inj hok).symm⟩

theorem gravityRealizeParameters_ok {vnorm : Vec3 → ℚ} {s s' : SystemState}
    (hok : gravityRealizeParameters vnorm s = .ok s') :
    ¬s.stage < Stage.Modeled ∧ s' = gravityParamResult vnorm s := by
  by_cases h : s.stage < Stage.Modeled
  · rw [gravityRealizeParameters, if_pos h] at hok
    exact absurd hok (by simp)
  · rw [gravityRealizeParameters, if_neg h] at hok
    exact ⟨h, (Except.ok.inj hok).symm⟩

theorem gravityRealizeDynamics_ok {s s' : SystemState}
    (hok : gravityRealizeDynamics s = .ok s') :
    ¬s.stage < Stage.Moving ∧
      ((s.gravParams.enabled = false ∨ s.gravParamCache.gMagnitude = 0) → s' = s) ∧
      (¬(s.gravParams.enabled = false ∨ s.gravParamCache.gMagnitude = 0) →
        s' = gravityDynResult s) := by
  by_cases h : s.stage < Stage.Moving
  · rw [gravityRealizeDynamics, if_pos h] at hok
    exact absurd hok (by simp)
  · by_cases hgate : s.gravParams.enabled = false ∨ s.gravParamCache.gMagnitude = 0
    · rw [gravityRealizeDynamics, if_neg h, if_pos hgate] at hok
      exact ⟨h, fun _ => (Except.ok.inj hok).symm, fun hcon => absurd hgate hcon⟩
    · rw [gravityRealizeDynamics, if_neg h, if_neg hgate] at hok
      exact ⟨h, fun hcon => absurd hcon hgate, fun _ => (Except.ok.inj hok).symm⟩

/-! ## Claim theorems -/

/-- Claim C5. If the gravity element is disabled or its cached gravity
magnitude is zero, its Dynamics hook returns the state unchanged — every
body force, particle force, mobility force and the potential energy
accumulator are untouched — and the result does not depend on the kinematics
(the matter subsystems) at all, regardless of the gravity vector's value. -/
theorem C5_gravity_disabled_inert (s : SystemState)
    (hgate : s.gravParams.enabled = false ∨ s.gravParamCache.gMagnitude = 0) :
    (Stage.Moving ≤ s.stage → gravityRealizeDynamics s = .ok s) ∧
    (∀ s', gravityRealizeDynamics s = .ok s' → s' = s) ∧
    (∀ M : List MatterSubsystem, Stage.Moving ≤ s.stage →
      gravityRealizeDynamics { s with matter := M } = .ok { s with matter := M }) := by
  have key : ∀ t : SystemState,
      t.gravParams.enabled = false ∨ t.gravParamCache.gMagnitude = 0 →
      Stage.Moving ≤ t.stage → gravityRealizeDynamics t = .ok t := by
    intro t hg hst
    rw [gravityRealizeDynamics, if_neg (not_lt.mpr hst), if_pos hg]
  refine ⟨fun hst => key s hgate hst, ?_, fun M hst => key _ hgate hst⟩
  intro s' hok
  exact (gravityRealizeDynamics_ok hok).2.1 hgate

/-- Claim C6. After the gravity element's `realizeParameters` hook succeeds,
the cached direction is always a unit vector: it equals `g / |g|` when the
gravity vector `g` is nonzero, and defaults to the fixed vertical unit
vector `(0,0,1)` with cached magnitude `0` when `g` is exactly zero — a zero
vector is never normalized. -/
theorem C6_gravity_direction_unit (vnorm : Vec3 → ℚ) (s s' : SystemState)
    (hnorm : IsNormLike vnorm) (hvert : vnorm ⟨0, 0, 1⟩ = 1)
    (hok : gravityRealizeParameters vnorm s = .ok s') :
    vnorm s'.gravParamCache.gDirection = 1 ∧
    s'.gravParamCache.gMagnitude = vnorm s.gravParams.gravity ∧
    (s.gravParams.gravity ≠ 0 → s'.gravParamCache.gDirection =
      s.gravParams.gravity.divR (vnorm s.gravParams.gravity)) ∧
    (s.gravParams.gravity = 0 →
      s'.gravParamCache.gDirection = ⟨0, 0, 1⟩ ∧ s'.gravParamCache.gMagnitude = 0) := by
  obtain ⟨-, rfl⟩ := gravityRealizeParameters_ok hok
  obtain ⟨hpos, hdef, hhom⟩ := hnorm
  by_cases hmag : vnorm s.gravParams.gravity = 0
  · have hg0 : s.gravParams.gravity = 0 := (hdef _).mp hmag
    refine ⟨?_, by simp [gravityParamResult], ?_, ?_⟩
    · simp [gravityParamResult, if_pos hmag, hvert]
    · intro hne; exact absurd hg0 hne
    · intro _; simp [gravityParamResult, if_pos hmag, hmag]
  · have hmpos : 0 < vnorm s.gravParams.gravity :=
      lt_of_le_of_ne (hpos _) (Ne.symm hmag)
    refine ⟨?_, by simp [gravityParamResult], ?_, ?_⟩
    · simp only [gravityParamResult, if_neg hmag]
      rw [Vec3.divR_eq_smul, hhom]
      rw [abs_of_pos (by positivity)]
      exact one_div_mul_cancel hmag
    · intro _; simp [gravityParamResult, if_neg hmag]
    · intro h0; exact absurd ((hdef _).mpr h0) hmag

/-- Claim C9. Given an adequately realized stage, the spring's
`realizeParameters` hook raises a value-domain error naming the offending
field and the calling location exactly when the stiffness or the natural
length is negative (stiffness checked first); on success it returns the
state unchanged — no computation, no default substitution. -/
theorem C9_spring_parameter_validation (s : SystemState)
    (hstage : Stage.Modeled ≤ s.stage) :
    (s.springParams.stiffness < 0 →
      springRealizeParameters s =
        .error (.valueCheckNonneg s.springParams.stiffness "stiffness"
          springParametersLoc)) ∧
    (0 ≤ s.springParams.stiffness → s.springParams.naturalLength < 0 →
      springRealizeParameters s =
        .error (.valueCheckNonneg s.springParams.naturalLength "naturalLength"
          springParametersLoc)) ∧
    ((∃ s', springRealizeParameters s = .ok s') ↔
      0 ≤ s.springParams.stiffness ∧ 0 ≤ s.springParams.naturalLength) ∧
    (∀ s', springRealizeParameters s = .ok s' → s' = s) := by
  have hns : ¬s.stage < Stage.Modeled := not_lt.mpr hstage
  refine ⟨?_, ?_, ⟨?_, ?_⟩, ?_⟩
  · intro hk; rw [springRealizeParameters, if_neg hns, if_pos hk]
  · intro hk hx0
    rw [springRealizeParameters, if_neg hns, if_neg (not_lt.mpr hk), if_pos hx0]
  · rintro ⟨s', hok⟩
    by_cases hk : s.springParams.stiffness < 0
    · rw [springRealizeParameters, if_neg hns, if_pos hk] at hok
      exact absurd hok (by simp)
    · by_cases hx0 : s.springParams.naturalLength < 0
      · rw [springRealizeParameters, if_neg hns, if_neg hk, if_pos hx0] at hok
        exact absurd hok (by simp)
      · exact ⟨le_of_not_lt hk, le_of_not_lt hx0⟩
  · rintro ⟨hk, hx0⟩
    exact ⟨s, by
      rw [springRealizeParameters, if_neg hns, if_neg (not_lt.mpr hk),
        if_neg (not_lt.mpr hx0)]⟩
  · intro s' hok
    by_cases hk : s.springParams.stiffness < 0
    · rw [springRealizeParameters, if_neg hns, if_pos hk] at hok
      exact absurd hok (by simp)
    · by_cases hx0 : s.springParams.naturalLength < 0
      · rw [springRealizeParameters, if_neg hns, if_neg hk, if_pos hx0] at hok
        exact absurd hok (by simp)
      · rw [springRealizeParameters, if_neg hns, if_neg hk, if_neg hx0] at hok
        exact (Except.ok.inj hok).symm

/-- Claim C8. Each realize hook of the spring and gravity elements reports a
fatal stage-precondition error — carrying the offending hook's location
string and the required versus actual stage — if and only if the state's
realized stage is below that hook's required predecessor stage
(`realizeDynamics` requires at least Moving, `realizeParameters` at least
Modeled, and so on); the error is returned, never recovered. -/
theorem C8_stage_preconditions (vnorm : Vec3 → ℚ) (topo : SpringTopology)
    (s : SystemState) :
    (springRealizeModeling s =
        .error (.stageCheckGE springModelingLoc Stage.Built s.stage) ↔
      s.stage < Stage.Built) ∧
    (springRealizeParameters s =
        .error (.stageCheckGE springParametersLoc Stage.Modeled s.stage) ↔
      s.stage < Stage.Modeled) ∧
    (springRealizeTime s =
        .error (.stageCheckGE springTimeLoc Stage.Parametrized s.stage) ↔
      s.stage < Stage.Parametrized) ∧
    (springRealizeConfiguration vnorm topo s =
        .error (.stageCheckGE springConfigurationLoc Stage.Timed s.stage) ↔
      s.stage < Stage.Timed) ∧
    (springRealizeMotion s =
        .error (.stageCheckGE springMotionLoc Stage.Configured s.stage) ↔
      s.stage < Stage.Configured) ∧
    (springRealizeDynamics topo s =
        .error (.stageCheckGE springDynamicsLoc Stage.Moving s.stage) ↔
      s.stage < Stage.Moving) ∧
    (springRealizeReaction s =
        .error (.stageCheckGE springReactionLoc Stage.Dynamics s.stage) ↔
      s.stage < Stage.Dynamics) ∧
    (gravityRealizeParameters vnorm s =
        .error (.stageCheckGE gravityParametersLoc Stage.Modeled s.stage) ↔
      s.stage < Stage.Modeled) ∧
    (gravityRealizeConfiguration s =
        .error (.stageCheckGE gravityConfigurationLoc Stage.Timed s.stage) ↔
      s.stage < Stage.Timed) ∧
    (gravityRealizeDynamics s =
        .error (.stageCheckGE gravityDynamicsLoc Stage.Moving s.stage) ↔
      s.stage < Stage.Moving) := by
  refine ⟨?_, ?_, ?_, ?_, ?_, ?_, ?_, ?_, ?_, ?_⟩
  · by_cases h : s.stage < Stage.Built <;> simp [springRealizeModeling, h]
  · by_cases h : s.stage < Stage.Modeled <;> simp [springRealizeParameters, h]
    all_goals (split_ifs <;> simp_all)
  · by_cases h : s.stage < Stage.Parametrized <;> simp [springRealizeTime, h]
  · by_cases h : s.stage < Stage.Timed <;> simp [springRealizeConfiguration, h]
  · by_cases h : s.stage < Stage.Configured <;> simp [springRealizeMotion, h]
  · by_cases h : s.stage < Stage.Moving <;> simp [springRealizeDynamics, h]
  · by_cases h : s.stage < Stage.Dynamics <;> simp [springRealizeReaction, h]
  · by_cases h : s.stage < Stage.Modeled <;> simp [gravityRealizeParameters, h]
  · by_cases h : s.stage < Stage.Timed <;> simp [gravityRealizeConfiguration, h]
  · by_cases h : s.stage < Stage.Moving <;> simp [gravityRealizeDynamics, h]
    all_goals (split_ifs <;> simp_all)

/-! ## Field-level descriptions of the spring's accumulator update -/

theorem springDynAccum_rigid (topo : SpringTopology) (d : ℚ) (cc : ConfigurationCache)
    (f1 : Vec3) (u0 : List ℚ) (a0 : ForceAccum) :
    (springDynAccum topo d cc f1 u0 a0).rigidBodyForces =
      modAt (fun buf => modAt (fun fb => fb - (cc.station2_G.cross f1, f1)) topo.body2 buf) 0
        (modAt (fun buf => modAt (fun fb => fb + (cc.station1_G.cross f1, f1)) topo.body1 buf)
          0 a0.rigidBodyForces) := by
  by_cases hd : d ≠ 0 <;> simp [springDynAccum, hd]

theorem springDynAccum_particle (topo : SpringTopology) (d : ℚ) (cc : ConfigurationCache)
    (f1 : Vec3) (u0 : List ℚ) (a0 : ForceAccum) :
    (springDynAccum topo d cc f1 u0 a0).particleForces = a0.particleForces := by
  by_cases hd : d ≠ 0 <;> simp [springDynAccum, hd]

theorem springDynAccum_pe (topo : SpringTopology) (d : ℚ) (cc : ConfigurationCache)
    (f1 : Vec3) (u0 : List ℚ) (a0 : ForceAccum) :
    (springDynAccum topo d cc f1 u0 a0).pe = a0.pe + cc.pe := by
  by_cases hd : d ≠ 0 <;> simp [springDynAccum, hd]

theorem springDynAccum_mobility_zero (topo : SpringTopology) {d : ℚ}
    (cc : ConfigurationCache) (f1 : Vec3) (u0 : List ℚ) (a0 : ForceAccum) (hd : d = 0) :
    (springDynAccum topo d cc f1 u0 a0).mobilityForces = a0.mobilityForces := by
  simp [springDynAccum, hd]

theorem springDynAccum_mobility (topo : SpringTopology) {d : ℚ}
    (cc : ConfigurationCache) (f1 : Vec3) (u0 : List ℚ) (a0 : ForceAccum) (hd : d ≠ 0) :
    (springDynAccum topo d cc f1 u0 a0).mobilityForces =
      modAt (fun mf => List.zipWith (fun f ui => f - d * ui) mf u0) 0 a0.mobilityForces := by
  simp [springDynAccum, hd]

/-- Claim C10. The spring element reads body kinematics from matter
subsystem 0 only (its configuration cache is a function of the parameters
and of `matter.getD 0` alone), and its Dynamics hook writes only matter
subsystem 0's slots of the shared accumulators: in a system with more
than one matter subsystem, every other subsystem's rigid-body, particle and
mobility force buffers are left unchanged. -/
theorem C10_spring_subsystem_zero_only (vnorm : Vec3 → ℚ) (topo : SpringTopology)
    (s s₁ s₂ : SystemState)
    (_hmulti : 1 < s.matter.length)
    (hconf : springRealizeConfiguration vnorm topo s = .ok s₁)
    (hdyn : springRealizeDynamics topo s₁ = .ok s₂) :
    s₁.springConfCache =
      springConfCacheOf vnorm topo s.springParams (s.matter.getD 0 default) ∧
    (∀ j, j ≠ 0 →
      s₂.accum.rigidBodyForces.getD j [] = s.accum.rigidBodyForces.getD j [] ∧
      s₂.accum.mobilityForces.getD j [] = s.accum.mobilityForces.getD j []) ∧
    s₂.accum.particleForces = s.accum.particleForces := by
  obtain ⟨-, rfl⟩ := springRealizeConfiguration_ok hconf
  obtain ⟨-, rfl⟩ := springRealizeDynamics_ok hdyn
  refine ⟨rfl, ?_, ?_⟩
  · intro j hj
    constructor
    · show (springDynAccum topo _ _ _ _ _).rigidBodyForces.getD j [] = _
      rw [springDynAccum_rigid, getD_modAt_ne _ 0 j (Ne.symm hj),
        getD_modAt_ne _ 0 j (Ne.symm hj)]
      rfl
    · show (springDynAccum topo _ _ _ _ _).mobilityForces.getD j [] = _
      by_cases hd : (springConfResult vnorm topo s).springParams.damping = 0
      · rw [springDynAccum_mobility_zero _ _ _ _ _ hd]
        rfl
      · rw [springDynAccum_mobility _ _ _ _ _ hd, getD_modAt_ne _ 0 j (Ne.symm hj)]
        rfl
  · show (springDynAccum topo _ _ _ _ _).particleForces = _
    rw [springDynAccum_particle]
    rfl

/-- Claim C7. In a successful spring Dynamics pass with damping coefficient
`d` and generalized velocities `u` (of matter subsystem 0): when `d ≠ 0`
exactly `-d • u` is added into the mobility-force accumulator, and when
`d = 0` the mobility forces are untouched; the damping term enters no other
accumulator — the particle forces are unchanged and the potential-energy and
rigid-body updates are given by damping-free expressions — and the mobility
update is independent of the spring's geometry. -/
theorem C7_spring_damping (topo : SpringTopology) (s s' : SystemState)
    (hdyn : springRealizeDynamics topo s = .ok s')
    (d : ℚ) (hd : d = s.springParams.damping)
    (u : List ℚ) (hu : u = (s.matter.getD 0 default).u) :
    (d = 0 → s'.accum.mobilityForces = s.accum.mobilityForces) ∧
    (d ≠ 0 → s'.accum.mobilityForces =
      modAt (fun mf => List.zipWith (fun f ui => f + (-d) * ui) mf u) 0
        s.accum.mobilityForces) ∧
    s'.accum.particleForces = s.accum.particleForces ∧
    s'.accum.pe = s.accum.pe + s.springConfCache.pe ∧
    s'.accum.rigidBodyForces =
      modAt (fun buf => modAt (fun fb => fb -
          (s.springConfCache.station2_G.cross s'.springDynCache.f1_G,
            s'.springDynCache.f1_G)) topo.body2 buf) 0
        (modAt (fun buf => modAt (fun fb => fb +
          (s.springConfCache.station1_G.cross s'.springDynCache.f1_G,
            s'.springDynCache.f1_G)) topo.body1 buf) 0 s.accum.rigidBodyForces) := by
  obtain ⟨-, rfl⟩ := springRealizeDynamics_ok hdyn
  subst hd hu
  refine ⟨?_, ?_, ?_, ?_, ?_⟩
  · intro h0
    exact springDynAccum_mobility_zero _ _ _ _ _ h0
  · intro hne
    have hfn : (fun (f ui : ℚ) => f - s.springParams.damping * ui) =
        (fun (f ui : ℚ) => f + (-s.springParams.damping) * ui) := by
      funext f ui; ring
    rw [show (springDynResult topo s).accum =
        springDynAccum topo s.springParams.damping s.springConfCache
          ((s.springConfCache.fscalar / s.springConfCache.x) • s.springConfCache.v_G)
          (s.matter.getD 0 default).u s.accum from rfl,
      springDynAccum_mobility _ _ _ _ _ hne, hfn]
  · exact springDynAccum_particle _ _ _ _ _ _
  · exact springDynAccum_pe _ _ _ _ _ _
  · exact springDynAccum_rigid _ _ _ _ _ _

theorem getD_zipWith (f : α → β → γ) (A : List α) (B : List β) (dA : α) (dB : β) (dC : γ)
    (j : ℕ) (hA : j < A.length) (hB : j < B.length) :
    (List.zipWith f A B).getD j dC = f (A.getD j dA) (B.getD j dB) := by
  rw [List.getD_eq_getElem _ _ (by rw [List.length_zipWith]; omega),
    List.getD_eq_getElem _ _ hA, List.getD_eq_getElem _ _ hB, List.getElem_zipWith]

/-- Claim C2. For a spring state with stiffness `k`, natural length `x0` and
station world positions `p1, p2` with separation `v = p2 - p1` and
`x = |v| > 0`: the Configured-stage cache holds `fscalar = k*(x - x0)` and
`pe = k*(x - x0)^2 / 2`, and the Dynamics hook caches
`f1 = (k*(x - x0)/x) • v`, adds `f1` at station 1 and exactly `-f1` at
station 2 — each converted to the spatial force (torque `station_G × f`,
linear force `f`) on the owning body's slot — and adds `pe` to the
potential-energy accumulator. -/
theorem C2_spring_force_law (vnorm : Vec3 → ℚ) (topo : SpringTopology)
    (s s₁ s₂ : SystemState)
    (_hstage : Stage.Moving ≤ s.stage)
    (hconf : springRealizeConfiguration vnorm topo s = .ok s₁)
    (hdyn : springRealizeDynamics topo s₁ = .ok s₂)
    (k x0 : ℚ) (m0 : MatterSubsystem) (st1G st2G p1 p2 v f1 : Vec3) (x : ℚ)
    (hk : k = s.springParams.stiffness)
    (hx0 : x0 = s.springParams.naturalLength)
    (hm0 : m0 = s.matter.getD 0 default)
    (hst1 : st1G = (m0.bodies.getD topo.body1 default).X_GB.R.mulVec topo.station1)
    (hst2 : st2G = (m0.bodies.getD topo.body2 default).X_GB.R.mulVec topo.station2)
    (hp1 : p1 = (m0.bodies.getD topo.body1 default).X_GB.T + st1G)
    (hp2 : p2 = (m0.bodies.getD topo.body2 default).X_GB.T + st2G)
    (hv : v = p2 - p1) (hx : x = vnorm v) (_hxpos : 0 < x)
    (hf1 : f1 = (k * (x - x0) / x) • v) :
    s₁.springConfCache.fscalar = k * (x - x0) ∧
    s₁.springConfCache.pe = k * (x - x0) ^ 2 / 2 ∧
    s₂.springDynCache.f1_G = f1 ∧
    s₂.accum.pe = s.accum.pe + k * (x - x0) ^ 2 / 2 ∧
    s₂.accum.rigidBodyForces =
      modAt (fun buf => modAt (fun fb => fb + (st2G.cross (-f1), -f1)) topo.body2
          (modAt (fun fb => fb + (st1G.cross f1, f1)) topo.body1 buf)) 0
        s.accum.rigidBodyForces := by
  obtain ⟨-, rfl⟩ := springRealizeConfiguration_ok hconf
  obtain ⟨-, rfl⟩ := springRealizeDynamics_ok hdyn
  subst hm0 hst1 hst2 hp1 hp2 hv hx hk hx0 hf1
  refine ⟨rfl, ?_, rfl, ?_, ?_⟩
  · show (1 / 2 : ℚ) * _ * _ = _
    ring
  · show (springDynAccum topo _ _ _ _ _).pe = _
    rw [springDynAccum_pe]
    show s.accum.pe + (1 / 2 : ℚ) * _ * _ = _
    ring
  · show (springDynAccum topo _ _ _ _ _).rigidBodyForces = _
    rw [springDynAccum_rigid, modAt_modAt_same]
    have hfun : ∀ (w : Vec3) (q : Vec3),
        (fun fb : SpatialVec => fb - (w.cross q, q)) =
          (fun fb : SpatialVec => fb + (w.cross (-q), -q)) := by
      intro w q
      funext fb
      rw [Vec3.cross_neg]
      show fb - (w.cross q, q) = fb + (-(w.cross q), -q)
      rw [sub_eq_add_neg]
      rfl
    rw [hfun]
    rfl

/-- Claim C3. For an enabled uniform-gravity state whose cached gravity
magnitude is nonzero, the Dynamics hook walks every matter subsystem
registered with the multibody system, and within each adds `mass • g` to
every particle force slot and, for every rigid body of mass `m` with ground
center of mass `com_G`, adds `m * (g ⬝ com_G - |g| * h0)` to the
potential-energy accumulator and the spatial force
`(com_B_G × (m • g), m • g)` to that body's slot; mobility forces are
untouched. -/
theorem C3_gravity_all_subsystems (s s' : SystemState)
    (_hstage : Stage.Moving ≤ s.stage)
    (hen : s.gravParams.enabled = true)
    (hmag : s.gravParamCache.gMagnitude ≠ 0)
    (hshape : accumMatches s.matter s.accum)
    (hdyn : gravityRealizeDynamics s = .ok s')
    (g : Vec3) (h0 : ℚ)
    (hg : g = s.gravParams.gravity) (hh0 : h0 = s.gravParams.zeroHeight) :
    (∀ j, j < s.matter.length →
      (∀ i, i < (s.matter.getD j default).particleMasses.length →
        (s'.accum.particleForces.getD j []).getD i 0 =
          (s.accum.particleForces.getD j []).getD i 0 +
            ((s.matter.getD j default).particleMasses.getD i 0) • g) ∧
      (∀ i, i < (s.matter.getD j default).bodies.length →
        (s'.accum.rigidBodyForces.getD j []).getD i 0 =
          (s.accum.rigidBodyForces.getD j []).getD i 0 +
            (((((s.matter.getD j default).bodies.getD i default).X_GB.R.mulVec
                  ((s.matter.getD j default).bodies.getD i default).comB).cross
                (((s.matter.getD j default).bodies.getD i default).mass • g)),
              ((s.matter.getD j default).bodies.getD i default).mass • g))) ∧
    s'.accum.pe = s.accum.pe +
      (s.matter.map (fun m => (m.bodies.map (fun b =>
        b.mass * (g.dot (b.X_GB.T + b.X_GB.R.mulVec b.comB) -
          s.gravParamCache.gMagnitude * h0))).sum)).sum ∧
    s'.accum.mobilityForces = s.accum.mobilityForces := by
  obtain ⟨h1, h2, h3⟩ := hshape
  have hgate : ¬(s.gravParams.enabled = false ∨ s.gravParamCache.gMagnitude = 0) := by
    simp [hen, hmag]
  have hs' : s' = gravityDynResult s := (gravityRealizeDynamics_ok hdyn).2.2 hgate
  subst hs' hg hh0
  have hlen1 : s.accum.rigidBodyForces.length = s.matter.length := h1.length_eq
  have hlen2 : s.accum.particleForces.length = s.matter.length := h2.length_eq
  refine ⟨?_, ?_, rfl⟩
  · intro j hj
    have hjr : j < s.accum.rigidBodyForces.length := by omega
    have hjp : j < s.accum.particleForces.length := by omega
    constructor
    · intro i hi
      show ((List.zipWith _ s.accum.particleForces s.matter).getD j []).getD i 0 = _
      rw [getD_zipWith _ _ _ [] default [] j hjp hj]
      have hblen : (s.accum.particleForces.getD j []).length =
          (s.matter.getD j default).particleMasses.length := by
        rw [List.getD_eq_getElem _ _ hjp, List.getD_eq_getElem _ _ hj]
        exact h2.get _ _
      rw [getD_zipWith _ _ _ 0 0 0 i (by omega) hi]
    · intro i hi
      show ((List.zipWith _ s.accum.rigidBodyForces s.matter).getD j []).getD i 0 = _
      rw [getD_zipWith _ _ _ [] default [] j hjr hj]
      have hblen : (s.accum.rigidBodyForces.getD j []).length =
          (s.matter.getD j default).bodies.length := by
        rw [List.getD_eq_getElem _ _ hjr, List.getD_eq_getElem _ _ hj]
        exact h1.get _ _
      rw [getD_zipWith _ _ _ 0 default 0 i (by omega) hi]
      rfl
  · rfl

/-- Adding a size-matching zero contribution on the right is the identity. -/
theorem addAccum_zero_right {matter : List MatterSubsystem} {a : ForceAccum}
    (h : accumMatches matter a) : addAccum a (zeroAccumFor matter) = a := by
  obtain ⟨h1, h2, h3⟩ := h
  obtain ⟨ar, ap, am, ape⟩ := a
  simp only [addAccum, zeroAccumFor, ForceAccum.mk.injEq, add_zero, and_true]
  exact ⟨zipAdd2_zeros _ h1, zipAdd2_zeros _ h2, zipAdd2_zeros _ h3⟩

/-- The spring's standalone Dynamics contribution: the effect of its
accumulator update on the zeroed accumulator.  It is a function of the
parameters, cache and kinematics only — not of the accumulator contents. -/
def springContribution (topo : SpringTopology) (s : SystemState) : ForceAccum :=
  springDynAccum topo s.springParams.damping s.springConfCache
    ((s.springConfCache.fscalar / s.springConfCache.x) • s.springConfCache.v_G)
    (s.matter.getD 0 default).u (zeroAccumFor s.matter)

/-- The gravity element's standalone Dynamics contribution: zero when
disabled or degenerate, else the effect of its sweep on the zeroed
accumulator.  It is a function of the parameters, cache and kinematics
only — not of the accumulator contents. -/
def gravityContribution (s : SystemState) : ForceAccum :=
  if s.gravParams.enabled = false ∨ s.gravParamCache.gMagnitude = 0 then
    zeroAccumFor s.matter
  else
    gravityApply s.gravParams.gravity
      (s.gravParamCache.gMagnitude * s.gravParams.zeroHeight) s.matter
      (zeroAccumFor s.matter)

/-- Claim C1. Each force element's Dynamics hook changes the shared
accumulators only by bufferwise-adding its own contribution, a value
independent of the accumulators' prior contents; consequently contributions
commute, the zeroed accumulator absorbs them exactly, and folding any
collection of contributions is invariant under permutation — so running N
elements in any order over a zeroed accumulator yields the sum of their
standalone contributions, and no hook overwrites or reads back accumulator
contents. -/
theorem C1_accumulator_additivity :
    (∀ (topo : SpringTopology) (s s' : SystemState), accumMatches s.matter s.accum →
      springRealizeDynamics topo s = .ok s' →
      s'.accum = addAccum s.accum (springContribution topo s)) ∧
    (∀ (topo : SpringTopology) (s : SystemState) (b : ForceAccum),
      springContribution topo { s with accum := b } = springContribution topo s) ∧
    (∀ (s s' : SystemState), accumMatches s.matter s.accum →
      gravityRealizeDynamics s = .ok s' →
      s'.accum = addAccum s.accum (gravityContribution s)) ∧
    (∀ (s : SystemState) (b : ForceAccum),
      gravityContribution { s with accum := b } = gravityContribution s) ∧
    (∀ a b c : ForceAccum, addAccum (addAccum a b) c = addAccum (addAccum a c) b) ∧
    (∀ (matter : List MatterSubsystem) (d : ForceAccum), accumMatches matter d →
      addAccum (zeroAccumFor matter) d = d) ∧
    (∀ (ds ds' : List ForceAccum) (a : ForceAccum), ds.Perm ds' →
      ds.foldl addAccum a = ds'.foldl addAccum a) := by
  refine ⟨?_, fun topo s b => rfl, ?_, fun s b => rfl, addAccum_right_comm, ?_, ?_⟩
  · intro topo s s' hshape hok
    obtain ⟨-, rfl⟩ := springRealizeDynamics_ok hok
    exact springDynAccum_additive topo _ _ _ _ hshape
  · intro s s' hshape hok
    by_cases hgate : s.gravParams.enabled = false ∨ s.gravParamCache.gMagnitude = 0
    · have hs' : s' = s := (gravityRealizeDynamics_ok hok).2.1 hgate
      subst hs'
      rw [gravityContribution, if_pos hgate, addAccum_zero_right hshape]
    · have hs' : s' = gravityDynResult s := (gravityRealizeDynamics_ok hok).2.2 hgate
      subst hs'
      rw [gravityContribution, if_neg hgate]
      exact gravityApply_additive _ _ hshape
  · intro matter d hd
    exact addAccum_zero_left hd
  · intro ds ds' a hperm
    exact foldl_addAccum_perm hperm a

/-! ## Concrete fixtures exercising the theorems

A one-subsystem system: two bodies at ground positions `(0,0,0)` and
`(2,0,0)` with identity orientations, one particle of mass 3, one mobility
with generalized velocity 5; spring `k = 3`, `x0 = 1`, damping 2 between
stations at the two body origins; gravity `(0,-10,0)` with cached magnitude
10; accumulators preloaded with nonzero contents. -/

def topoW : SpringTopology := ⟨0, 1, ⟨0, 0, 0⟩, ⟨0, 0, 0⟩⟩

def mat3IdW : Mat3 := ⟨⟨1, 0, 0⟩, ⟨0, 1, 0⟩, ⟨0, 0, 1⟩⟩

def body0W : Body := ⟨2, ⟨0, 0, 0⟩, ⟨mat3IdW, ⟨0, 0, 0⟩⟩⟩

def body1W : Body := ⟨1, ⟨0, 0, 0⟩, ⟨mat3IdW, ⟨2, 0, 0⟩⟩⟩

def m0W : MatterSubsystem := ⟨[body0W, body1W], [3], [5]⟩

def matterW : List MatterSubsystem := [m0W]

def accumW : ForceAccum := ⟨[[0, 0]], [[⟨1, 1, 1⟩]], [[4]], 7⟩

def sW : SystemState :=
  ⟨Stage.Dynamics, ⟨3, 1, ⟨0, 0, 0⟩, 2⟩, ⟨0, 0, 0, 0, 0, 0⟩, ⟨0⟩,
    ⟨⟨0, -10, 0⟩, 1, true⟩, ⟨⟨0, -1, 0⟩, 10⟩, matterW, accumW⟩

def s1W : SystemState := springConfResult oneNorm topoW sW

def s2W : SystemState := springDynResult topoW s1W

def sDisabledW : SystemState := { sW with gravParams := ⟨⟨0, -10, 0⟩, 1, false⟩ }

def sLowW : SystemState := { sW with stage := Stage.Allocated }

def sBadW : SystemState := { sW with springParams := ⟨-1, 1, ⟨0, 0, 0⟩, 0⟩ }

def m1W : MatterSubsystem := ⟨[], [], [9]⟩

def sMultiW : SystemState :=
  { sW with matter := [m0W, m1W],
            accum := ⟨[[0, 0], []], [[⟨1, 1, 1⟩], []], [[4], [6]], 7⟩ }

def s1MW : SystemState := springConfResult oneNorm topoW sMultiW

def s2MW : SystemState := springDynResult topoW s1MW

/-! ## Witnesses -/

theorem C1_witness :
    (springDynResult topoW sW).accum = addAccum sW.accum (springContribution topoW sW) :=
  C1_accumulator_additivity.1 topoW sW (springDynResult topoW sW) (by decide)
    (by rw [springRealizeDynamics, if_neg (by decide)]; rfl)

theorem C2_witness :
    s1W.springConfCache.fscalar = 3 * (2 - 1) ∧
    s2W.accum.pe = sW.accum.pe + 3 * (2 - 1) ^ 2 / 2 := by
  have h := C2_spring_force_law oneNorm topoW sW s1W s2W (by decide)
    (by rw [springRealizeConfiguration, if_neg (by decide)]; rfl)
    (by rw [springRealizeDynamics, if_neg (by decide)]; rfl)
    3 1 m0W ⟨0, 0, 0⟩ ⟨0, 0, 0⟩ ⟨0, 0, 0⟩ ⟨2, 0, 0⟩ ⟨2, 0, 0⟩ ⟨3, 0, 0⟩ 2
    rfl rfl rfl
    (by norm_num [m0W, body0W, mat3IdW, Mat3.mulVec, Vec3.dot, topoW])
    (by norm_num [m0W, body1W, mat3IdW, Mat3.mulVec, Vec3.dot, topoW])
    (by norm_num [m0W, body0W, body1W, topoW, Vec3.add_mk])
    (by norm_num [m0W, body0W, body1W, topoW, Vec3.add_mk])
    (by norm_num [Vec3.sub_def])
    (by norm_num [oneNorm])
    (by decide)
    (by norm_num [Vec3.smul_mk])
  exact ⟨h.1, h.2.2.2.1⟩

theorem C3_witness :
    ((gravityDynResult sW).accum.particleForces.getD 0 []).getD 0 0 =
      (sW.accum.particleForces.getD 0 []).getD 0 0 + (3 : ℚ) • (⟨0, -10, 0⟩ : Vec3) ∧
    (gravityDynResult sW).accum.mobilityForces = sW.accum.mobilityForces := by
  have h := C3_gravity_all_subsystems sW (gravityDynResult sW) (by decide) rfl
    (by decide) (by decide)
    (by rw [gravityRealizeDynamics, if_neg (by decide), if_neg (by decide)]; rfl)
    ⟨0, -10, 0⟩ 1 rfl rfl
  exact ⟨(h.1 0 (by decide)).1 0 (by decide), h.2.2⟩

theorem C5_witness : gravityRealizeDynamics sDisabledW = .ok sDisabledW :=
  (C5_gravity_disabled_inert sDisabledW (Or.inl rfl)).1 (by decide)

theorem C6_witness :
    oneNorm (gravityParamResult oneNorm sW).gravParamCache.gDirection = 1 :=
  (C6_gravity_direction_unit oneNorm sW (gravityParamResult oneNorm sW)
    oneNorm_isNormLike (by norm_num [oneNorm])
    (by rw [gravityRealizeParameters, if_neg (by decide)]; rfl)).1

theorem C7_witness :
    (springDynResult topoW sW).accum.mobilityForces =
      modAt (fun mf => List.zipWith (fun f ui => f + (-(2 : ℚ)) * ui) mf [5]) 0
        sW.accum.mobilityForces := by
  have h := C7_spring_damping topoW sW (springDynResult topoW sW)
    (by rw [springRealizeDynamics, if_neg (by decide)]; rfl) 2 rfl [5] rfl
  exact h.2.1 (by decide)

theorem C8_witness :
    springRealizeDynamics topoW sLowW =
      .error (.stageCheckGE springDynamicsLoc Stage.Moving sLowW.stage) :=
  ((C8_stage_preconditions oneNorm topoW sLowW).2.2.2.2.2.1).mpr (by decide)

theorem C9_witness :
    springRealizeParameters sBadW =
      .error (.valueCheckNonneg (-1) "stiffness" springParametersLoc) :=
  (C9_spring_parameter_validation sBadW (by decide)).1 (by decide)

theorem C10_witness :
    s2MW.accum.rigidBodyForces.getD 1 [] = sMultiW.accum.rigidBodyForces.getD 1 [] ∧
    s2MW.accum.particleForces = sMultiW.accum.particleForces := by
  have h := C10_spring_subsystem_zero_only oneNorm topoW sMultiW s1MW s2MW (by decide)
    (by rw [springRealizeConfiguration, if_neg (by decide)]; rfl)
    (by rw [springRealizeDynamics, if_neg (by decide)]; rfl)
  exact ⟨(h.2.1 1 (by decide)).1, h.2.2⟩

end SimbodyForces
